import Mathlib

/-!
Verification of the photometric-error kernel of bpvo (src/bpvo/photo_error.cc).

Floating-point values are modelled as exact rationals, machine `int` as `ℤ`
and flat buffers as total functions (`ℤ → ℚ` for the target image addressed
through a raw pointer, `ℕ → ℚ` for the per-point arrays `I0` and `r`).
Memory-safety questions are treated separately through explicit read-index
sets, since a total-function model cannot fault.
-/

namespace BPVO

/-- Homogeneous 4-vector of rationals, modelling `bpvo::Point` (`Eigen::Vector4f`). -/
structure Vec4 where
  x0 : ℚ
  x1 : ℚ
  x2 : ℚ
  x3 : ℚ
deriving DecidableEq

/-- Projection matrix `Matrix34` (3×4, row major), stored as its three rows. -/
structure Matrix34 where
  row0 : Vec4
  row1 : Vec4
  row2 : Vec4
deriving DecidableEq

/-- Dot product of a matrix row with a homogeneous point, one coordinate of `P * X`. -/
def dot4 (a b : Vec4) : ℚ :=
  a.x0 * b.x0 + a.x1 * b.x1 + a.x2 * b.x2 + a.x3 * b.x3

/-- Truncation toward zero, the semantics of C++ `static_cast<int>` on an
in-range floating value (photo_error.cc:38-39). -/
def truncToZero (q : ℚ) : ℤ :=
  if 0 ≤ q then ⌊q⌋ else ⌈q⌉

/-- Result of the per-point loop body of `PhotoError::Impl::init` in the
OpenCV variant (photo_error.cc:31-42): the projected pixel coordinate and
the validity flag. -/
structure OCVOut where
  x : ℚ
  y : ℚ
  valid : Bool
deriving DecidableEq

/-- One iteration of the loop in `PhotoError::Impl::init`, OpenCV variant
(photo_error.cc:31-42): `p = P * X[i]`, `w = 1/p[2]`, `x = w*p[0]`,
`y = w*p[1]`, `xi = (int)x`, `yi = (int)y`,
`valid = xi>=0 && xi<cols-1 && yi>=0 && yi<rows-1`.
The C++ cast truncates toward zero, hence `truncToZero`. -/
def initPointOCV (P : Matrix34) (X : Vec4) (rows cols : ℤ) : OCVOut :=
  let p0 := dot4 P.row0 X
  let p1 := dot4 P.row1 X
  let p2 := dot4 P.row2 X
  let w := 1 / p2
  let x := w * p0
  let y := w * p1
  let xi := truncToZero x
  let yi := truncToZero y
  ⟨x, y, decide (0 ≤ xi) && decide (xi < cols - 1) && decide (0 ≤ yi) && decide (yi < rows - 1)⟩

/-- Validity rule exactly as the spec words it (spec §4.1): floor coordinates
within the one-pixel margins. Used only to compare the spec against the code. -/
def validFloorSpec (x y : ℚ) (rows cols : ℤ) : Bool :=
  decide (0 ≤ ⌊x⌋) && decide (⌊x⌋ < cols - 1) && decide (0 ≤ ⌊y⌋) && decide (⌊y⌋ < rows - 1)

/-- Per-point output of point projection: validity flag, flattened base offset
and the four bilinear weights in the order `(w00, w10, w01, w11)`. -/
structure ProjOut where
  valid : Bool
  offset : ℤ
  w00 : ℚ
  w10 : ℚ
  w01 : ℚ
  w11 : ℚ
deriving DecidableEq

/-- Modelled from the spec: `projectPoints` (declared in bpvo/project_points.h,
called at photo_error.cc:89-91) is not part of this source slice. Spec §4.1:
`p = P * X[i]`; if the homogeneous scale is non-zero, divide through to get
`(x, y)`; `(xi, yi) = (floor x, floor y)`;
`valid = (0 <= xi < cols-1) AND (0 <= yi < rows-1)`; for valid points
`dx = x - xi`, `dy = y - yi`, weights `w00=(1-dx)(1-dy)`, `w10=dx(1-dy)`,
`w01=(1-dx)dy`, `w11=dx*dy`, offset `yi*stride + xi` with `stride = cols`;
spec §7: a degenerate (zero-scale) projection is treated as an invalid point,
not an error. -/
def projectPointSpec (P : Matrix34) (X : Vec4) (rows cols : ℤ) : ProjOut :=
  let p0 := dot4 P.row0 X
  let p1 := dot4 P.row1 X
  let p2 := dot4 P.row2 X
  if p2 = 0 then ⟨false, 0, 0, 0, 0, 0⟩
  else
    let x := p0 / p2
    let y := p1 / p2
    let xi := ⌊x⌋
    let yi := ⌊y⌋
    let dx := x - xi
    let dy := y - yi
    ⟨decide (0 ≤ xi) && decide (xi < cols - 1) && decide (0 ≤ yi) && decide (yi < rows - 1),
      yi * cols + xi,
      (1 - dx) * (1 - dy), dx * (1 - dy), (1 - dx) * dy, dx * dy⟩

/-- Cached state of `PhotoError::Impl` (photo_error.cc:204-207): `_stride`,
`_interp_coeffs` (4 weights per point), `_inds` (base offsets) and the valid
flags reached through `_valid_ptr`. -/
structure PhotoErrorState where
  stride : ℤ
  interp_coeffs : List (ℚ × ℚ × ℚ × ℚ)
  inds : List ℤ
  valid : List Bool
deriving DecidableEq

/-- Embedding of `PhotoError::Impl::init`, active variant (photo_error.cc:79-92):
resize the per-point arrays to `N`, set `_stride = cols`, record the valid
flags, and return early when `X` is empty; for `N > 0` the per-point data is
produced by `projectPoints`, modelled here by `projectPointSpec`. -/
def initImpl (P : Matrix34) (X : List Vec4) (rows cols : ℤ) : PhotoErrorState :=
  if X.isEmpty then ⟨cols, [], [], []⟩
  else
    let res := X.map fun Xi => projectPointSpec P Xi rows cols
    ⟨cols,
      res.map fun t => (t.w00, t.w10, t.w01, t.w11),
      res.map fun t => t.offset,
      res.map fun t => t.valid⟩

/-- Gather of the four neighbours in `PhotoError::Impl::load_data`
(photo_error.cc:149-153): `p = ptr + _inds[i]`, values
`(*p, *(p+1), *(p+_stride), *(p+_stride+1))`. The SIMD variant
`load_data_simd` (photo_error.cc:166-174) shuffles the same four lane values
out of two wider loads. -/
def load_data (S : PhotoErrorState) (I1 : ℤ → ℚ) (i : ℕ) : ℚ × ℚ × ℚ × ℚ :=
  let o := S.inds.getD i 0
  (I1 o, I1 (o + 1), I1 (o + S.stride), I1 (o + S.stride + 1))

/-- Four-term dot product `PhotoError::Impl::dot_` (photo_error.cc:176-202);
in exact arithmetic the SSE4.1 `dp`, the double-`hadd` reduction and Eigen's
`a.dot(b)` all compute this sum. -/
def dotW (a b : ℚ × ℚ × ℚ × ℚ) : ℚ :=
  a.1 * b.1 + a.2.1 * b.2.1 + a.2.2.1 * b.2.2.1 + a.2.2.2 * b.2.2.2

/-- Embedding of `PhotoError::Impl::operator()` (photo_error.cc:155-163):
`_valid_ptr[i] ? dot_(_interp_coeffs[i], load_data(ptr, i)) : 0.0f`. -/
def opApply (S : PhotoErrorState) (I1 : ℤ → ℚ) (i : ℕ) : ℚ :=
  if S.valid.getD i false then dotW (S.interp_coeffs.getD i (0, 0, 0, 0)) (load_data S I1 i)
  else 0

/-- One residual element, `this->operator()(I1_ptr, i) - I0_ptr[i]`
(photo_error.cc:140, and lane-wise in the 8-wide blocks). -/
def elemAt (S : PhotoErrorState) (I0 : ℕ → ℚ) (I1 : ℤ → ℚ) (i : ℕ) : ℚ :=
  opApply S I1 i - I0 i

/-- Store of one value into the residual buffer at index `j`. -/
def write (r : ℕ → ℚ) (j : ℕ) (v : ℚ) : ℕ → ℚ :=
  fun k => if k = j then v else r k

/-- Aligned 4-wide store `_mm_store_ps(r_ptr + i, ...)` (photo_error.cc:107,113):
lane `k` goes to `r[i+k]`. -/
def store4 (r : ℕ → ℚ) (i : ℕ) (v0 v1 v2 v3 : ℚ) : ℕ → ℚ :=
  write (write (write (write r i v0) (i + 1) v1) (i + 2) v2) (i + 3) v3

/-- Unaligned 4-wide store `_mm_storeu_ps(r_ptr + i, ...)` (photo_error.cc:123,129);
value semantics identical to the aligned store. -/
def storeu4 (r : ℕ → ℚ) (i : ℕ) (v0 v1 v2 v3 : ℚ) : ℕ → ℚ :=
  write (write (write (write r i v0) (i + 1) v1) (i + 2) v2) (i + 3) v3

/-- Scalar tail loop of `PhotoError::Impl::run` (photo_error.cc:139-140):
`for(; i < num_points; ++i) r_ptr[i] = this->operator()(I1_ptr, i) - I0_ptr[i]`. -/
def tailRun (S : PhotoErrorState) (I0 : ℕ → ℚ) (I1 : ℤ → ℚ) (n i : ℕ) (r : ℕ → ℚ) : ℕ → ℚ :=
  if i < n then tailRun S I0 I1 n (i + 1) (write r i (elemAt S I0 I1 i)) else r
termination_by n - i

/-- Aligned 8-wide block loop of `run` (photo_error.cc:105-119):
`for(i = 0; i <= num_points - 8; i += 8)` storing two 4-lane groups of
`operator()(I1, i+k) - I0[i+k]`, then falling through to the scalar tail. -/
def loopAligned (S : PhotoErrorState) (I0 : ℕ → ℚ) (I1 : ℤ → ℚ) (n i : ℕ) (r : ℕ → ℚ) :
    ℕ → ℚ :=
  if i + 8 ≤ n then
    loopAligned S I0 I1 n (i + 8)
      (store4
        (store4 r i (elemAt S I0 I1 i) (elemAt S I0 I1 (i + 1)) (elemAt S I0 I1 (i + 2))
          (elemAt S I0 I1 (i + 3)))
        (i + 4) (elemAt S I0 I1 (i + 4)) (elemAt S I0 I1 (i + 5)) (elemAt S I0 I1 (i + 6))
        (elemAt S I0 I1 (i + 7)))
  else tailRun S I0 I1 n i r
termination_by n - i

/-- Unaligned 8-wide block loop of `run` (photo_error.cc:121-135), identical to
the aligned branch except for the unaligned load/store intrinsics. -/
def loopUnaligned (S : PhotoErrorState) (I0 : ℕ → ℚ) (I1 : ℤ → ℚ) (n i : ℕ) (r : ℕ → ℚ) :
    ℕ → ℚ :=
  if i + 8 ≤ n then
    loopUnaligned S I0 I1 n (i + 8)
      (storeu4
        (storeu4 r i (elemAt S I0 I1 i) (elemAt S I0 I1 (i + 1)) (elemAt S I0 I1 (i + 2))
          (elemAt S I0 I1 (i + 3)))
        (i + 4) (elemAt S I0 I1 (i + 4)) (elemAt S I0 I1 (i + 5)) (elemAt S I0 I1 (i + 6))
        (elemAt S I0 I1 (i + 7)))
  else tailRun S I0 I1 n i r
termination_by n - i

/-- Embedding of `PhotoError::Impl::run` (photo_error.cc:94-141): early return
when `num_points == 0`, then the aligned or unaligned block loop followed by
the scalar tail. `aligned` stands for the pointer-alignment test
`simd::isAligned<16>(r_ptr) && simd::isAligned<16>(I0_ptr)` (photo_error.cc:103),
a memory-layout fact taken as an input here. The method is `const`: the state
`S` is only read. -/
def run (S : PhotoErrorState) (I0 : ℕ → ℚ) (I1 : ℤ → ℚ) (r : ℕ → ℚ) (aligned : Bool) :
    ℕ → ℚ :=
  if S.interp_coeffs.length = 0 then r
  else if aligned then loopAligned S I0 I1 S.interp_coeffs.length 0 r
  else loopUnaligned S I0 I1 S.interp_coeffs.length 0 r

/-- Pure element-by-element scalar path: the tail loop of photo_error.cc:139-140
run over the whole range, the correctness oracle of spec §4.2. -/
def runScalar (S : PhotoErrorState) (I0 : ℕ → ℚ) (I1 : ℤ → ℚ) (r : ℕ → ℚ) : ℕ → ℚ :=
  tailRun S I0 I1 S.interp_coeffs.length 0 r

/-- Buffer indices of `I1` read by the scalar gather `load_data`
(photo_error.cc:149-153). -/
def readIndices (S : PhotoErrorState) (i : ℕ) : List ℤ :=
  let o := S.inds.getD i 0
  [o, o + 1, o + S.stride, o + S.stride + 1]

/-- Buffer indices of `I1` read by `load_data_simd` (photo_error.cc:166-174):
`_mm_loadu_ps(p)` and `_mm_loadu_ps(p + _stride)` each read four consecutive
floats, although only lanes 0 and 1 of each survive the shuffle. -/
def readIndicesSimd (S : PhotoErrorState) (i : ℕ) : List ℤ :=
  let o := S.inds.getD i 0
  [o, o + 1, o + 2, o + 3, o + S.stride, o + S.stride + 1, o + S.stride + 2, o + S.stride + 3]

end BPVO

namespace BPVO

theorem write_apply (r : ℕ → ℚ) (j : ℕ) (v : ℚ) (k : ℕ) :
    write r j v k = if k = j then v else r k := rfl

theorem store4_apply (r : ℕ → ℚ) (i : ℕ) (v0 v1 v2 v3 : ℚ) (k : ℕ) :
    store4 r i v0 v1 v2 v3 k =
      if k = i then v0
      else if k = i + 1 then v1
      else if k = i + 2 then v2
      else if k = i + 3 then v3
      else r k := by
  simp only [store4, write]
  split_ifs <;> first | rfl | omega

theorem storeu4_apply (r : ℕ → ℚ) (i : ℕ) (v0 v1 v2 v3 : ℚ) (k : ℕ) :
    storeu4 r i v0 v1 v2 v3 k =
      if k = i then v0
      else if k = i + 1 then v1
      else if k = i + 2 then v2
      else if k = i + 3 then v3
      else r k := by
  simp only [storeu4, write]
  split_ifs <;> first | rfl | omega

theorem tailRun_spec_aux (S : PhotoErrorState) (I0 : ℕ → ℚ) (I1 : ℤ → ℚ) (n : ℕ) :
    ∀ (m i : ℕ) (r : ℕ → ℚ) (k : ℕ), n - i ≤ m →
      tailRun S I0 I1 n i r k = if i ≤ k ∧ k < n then elemAt S I0 I1 k else r k := by
  intro m
  induction m with
  | zero =>
    intro i r k h
    rw [tailRun]
    rw [if_neg (by omega), if_neg (by omega)]
  | succ m ih =>
    intro i r k h
    rw [tailRun]
    by_cases hin : i < n
    · rw [if_pos hin, ih (i + 1) _ k (by omega)]
      simp only [write]
      split_ifs <;> first | rfl | omega | (subst_vars; rfl)
    · rw [if_neg hin, if_neg (by omega)]

theorem tailRun_eq (S : PhotoErrorState) (I0 : ℕ → ℚ) (I1 : ℤ → ℚ) (n i : ℕ) (r : ℕ → ℚ)
    (k : ℕ) :
    tailRun S I0 I1 n i r k = if i ≤ k ∧ k < n then elemAt S I0 I1 k else r k :=
  tailRun_spec_aux S I0 I1 n (n - i) i r k le_rfl

theorem loopAligned_spec_aux (S : PhotoErrorState) (I0 : ℕ → ℚ) (I1 : ℤ → ℚ) (n : ℕ) :
    ∀ (m i : ℕ) (r : ℕ → ℚ) (k : ℕ), n - i ≤ m →
      loopAligned S I0 I1 n i r k = if i ≤ k ∧ k < n then elemAt S I0 I1 k else r k := by
  intro m
  induction m with
  | zero =>
    intro i r k h
    rw [loopAligned]
    rw [if_neg (by omega), tailRun_eq]
  | succ m ih =>
    intro i r k h
    rw [loopAligned]
    by_cases hin : i + 8 ≤ n
    · rw [if_pos hin, ih (i + 8) _ k (by omega)]
      simp only [store4_apply]
      split_ifs <;> first | rfl | omega | (subst_vars; rfl)
    · rw [if_neg hin, tailRun_eq]

theorem loopUnaligned_spec_aux (S : PhotoErrorState) (I0 : ℕ → ℚ) (I1 : ℤ → ℚ) (n : ℕ) :
    ∀ (m i : ℕ) (r : ℕ → ℚ) (k : ℕ), n - i ≤ m →
      loopUnaligned S I0 I1 n i r k = if i ≤ k ∧ k < n then elemAt S I0 I1 k else r k := by
  intro m
  induction m with
  | zero =>
    intro i r k h
    rw [loopUnaligned]
    rw [if_neg (by omega), tailRun_eq]
  | succ m ih =>
    intro i r k h
    rw [loopUnaligned]
    by_cases hin : i + 8 ≤ n
    · rw [if_pos hin, ih (i + 8) _ k (by omega)]
      simp only [storeu4_apply]
      split_ifs <;> first | rfl | omega | (subst_vars; rfl)
    · rw [if_neg hin, tailRun_eq]

theorem run_eval (S : PhotoErrorState) (I0 : ℕ → ℚ) (I1 : ℤ → ℚ) (r : ℕ → ℚ) (a : Bool)
    (k : ℕ) :
    run S I0 I1 r a k =
      if k < S.interp_coeffs.length then elemAt S I0 I1 k else r k := by
  unfold run
  by_cases hn : S.interp_coeffs.length = 0
  · rw [if_pos hn, if_neg (by omega)]
  · rw [if_neg hn]
    cases a with
    | false =>
      rw [if_neg (by simp)]
      rw [loopUnaligned_spec_aux S I0 I1 _ (S.interp_coeffs.length) 0 r k (by omega)]
      simp
    | true =>
      rw [if_pos rfl]
      rw [loopAligned_spec_aux S I0 I1 _ (S.interp_coeffs.length) 0 r k (by omega)]
      simp

/-- Claim C1, counterexample: a single invalid point with `I0[0] = 5` gets the
residual `-5`, not `0` — `run` computes `operator()(I1, i) - I0[i]` and the
invalid branch of `operator()` only zeroes the sampled value, not the
subtraction of the reference intensity (photo_error.cc:140,161). -/
theorem C1_counterexample :
    (PhotoErrorState.mk 4 [(0, 0, 0, 0)] [0] [false]).valid.getD 0 false = false ∧
    run ⟨4, [(0, 0, 0, 0)], [0], [false]⟩ (fun _ => 5) (fun _ => 0) (fun _ => 0) false 0 = -5 ∧
    (-5 : ℚ) ≠ 0 := by
  refine ⟨rfl, ?_, by norm_num⟩
  rw [run_eval]
  norm_num [elemAt, opApply]

/-- Claim C1, amended: for every point `i` with `valid[i] = false`, `run`
writes `r[i] = 0 - I0[i] = -I0[i]` — the sampled intensity is forced to `0`
and the target image is never consulted (the result is independent of `I1`),
but the reference intensity `I0[i]` is still subtracted, so the residual is
`-I0[i]` rather than `0`. -/
theorem C1_invalid_residual (S : PhotoErrorState) (I0 : ℕ → ℚ) (I1 : ℤ → ℚ) (r : ℕ → ℚ)
    (a : Bool) (i : ℕ) (hi : i < S.interp_coeffs.length)
    (hv : S.valid.getD i false = false) :
    run S I0 I1 r a i = 0 - I0 i ∧ ∀ J : ℤ → ℚ, run S I0 J r a i = run S I0 I1 r a i := by
  simp only [List.getD_eq_getElem?_getD] at hv
  constructor
  · rw [run_eval, if_pos hi]
    simp [elemAt, opApply, hv]
  · intro J
    rw [run_eval, run_eval, if_pos hi, if_pos hi]
    simp [elemAt, opApply, hv]

/-- Witness for claim C1 at a concrete state: one invalid point, `I0[0] = 5`. -/
theorem C1_witness :
    (0 : ℕ) < 1 ∧ ([false].getD 0 false = false) ∧
    run ⟨4, [(0, 0, 0, 0)], [0], [false]⟩ (fun _ => 5) (fun _ => 2) (fun _ => 0) true 0 =
      0 - 5 :=
  ⟨by decide, by decide,
    (C1_invalid_residual ⟨4, [(0, 0, 0, 0)], [0], [false]⟩ (fun _ => 5) (fun _ => 2)
      (fun _ => 0) true 0 (by decide) (by decide)).1⟩

/-- Claim C2: the SIMD gather `load_data_simd` violates the bound. At image
size `rows = cols = stride = 2` the point with base offset `0` (floor cell
`(0,0)`, which satisfies the margin rule `0 ≤ 0 < cols-1` and `0 ≤ 0 < rows-1`)
makes the two 4-wide unaligned loads touch index `5 ≥ rows*stride = 4`; the
scalar `load_data` footprint stays inside `[0, rows*stride)` at the same
point. This matches the source's own NOTE (photo_error.cc:168-171). -/
theorem C2_simd_reads_out_of_bounds :
    ((0 : ℤ) ≤ 0 ∧ (0 : ℤ) < 2 - 1) ∧
    ((readIndicesSimd ⟨2, [(1, 0, 0, 0)], [0], [true]⟩ 0).any
      (fun t => decide ((2 * 2 : ℤ) ≤ t)) = true) ∧
    (∀ t ∈ readIndices ⟨2, [(1, 0, 0, 0)], [0], [true]⟩ 0, 0 ≤ t ∧ t < 2 * 2) := by
  decide

/-- Claim C3: for a valid point `i`, `run` writes the bilinear 4-term dot
product of the cached weights with the neighbours at
`inds[i], inds[i]+1, inds[i]+stride, inds[i]+stride+1`, minus `I0[i]`
(photo_error.cc:140,149-163,192-202). -/
theorem C3_valid_residual (S : PhotoErrorState) (I0 : ℕ → ℚ) (I1 : ℤ → ℚ) (r : ℕ → ℚ)
    (a : Bool) (i : ℕ) (hi : i < S.interp_coeffs.length)
    (hv : S.valid.getD i false = true) :
    run S I0 I1 r a i =
      ((S.interp_coeffs.getD i (0, 0, 0, 0)).1 * I1 (S.inds.getD i 0)
        + (S.interp_coeffs.getD i (0, 0, 0, 0)).2.1 * I1 (S.inds.getD i 0 + 1)
        + (S.interp_coeffs.getD i (0, 0, 0, 0)).2.2.1 * I1 (S.inds.getD i 0 + S.stride)
        + (S.interp_coeffs.getD i (0, 0, 0, 0)).2.2.2 * I1 (S.inds.getD i 0 + S.stride + 1))
        - I0 i := by
  simp only [List.getD_eq_getElem?_getD] at hv
  rw [run_eval, if_pos hi]
  simp [elemAt, opApply, hv, dotW, load_data]

/-- Witness for claim C3, the spec's end-to-end scenario: 4×4 image with
`I1[t] = t`, one point at offset `5` with all four weights `1/4`
(projection at pixel `(1.5, 1.5)`), `I0[0] = 7`; the residual is
`(5+6+9+10)/4 - 7 = 1/2`. -/
theorem C3_witness :
    (0 : ℕ) < 1 ∧ ([true].getD 0 false = true) ∧
    run ⟨4, [(1/4, 1/4, 1/4, 1/4)], [5], [true]⟩ (fun _ => 7) (fun t => (t : ℚ))
      (fun _ => 0) true 0 = 1/2 := by
  refine ⟨by decide, by decide, ?_⟩
  rw [C3_valid_residual ⟨4, [(1/4, 1/4, 1/4, 1/4)], [5], [true]⟩ (fun _ => 7)
    (fun t => (t : ℚ)) (fun _ => 0) true 0 (by decide) (by decide)]
  norm_num

/-- Claim C5: for the same state and images, the vectorized execution path of
`run` (8-wide blocks plus scalar tail, either alignment branch) and the pure
element-by-element scalar path produce the same residual at every index;
in the exact-rational model the agreement is exact equality. -/
theorem C5_vectorized_eq_scalar (S : PhotoErrorState) (I0 : ℕ → ℚ) (I1 : ℤ → ℚ)
    (r : ℕ → ℚ) (a : Bool) (j : ℕ) :
    run S I0 I1 r a j = runScalar S I0 I1 r j := by
  rw [run_eval]
  unfold runScalar
  rw [tailRun_eq]
  simp

/-- Claim C8: with an empty point set, `init` produces empty per-point arrays
(it returns before calling `projectPoints`) and `run` returns the residual
buffer untouched at every index; neither raises an error. -/
theorem C8_empty_noop (P : Matrix34) (rows cols : ℤ) (I0 : ℕ → ℚ) (I1 : ℤ → ℚ)
    (r : ℕ → ℚ) (a : Bool) :
    initImpl P [] rows cols = ⟨cols, [], [], []⟩ ∧
    (initImpl P [] rows cols).valid = [] ∧
    ∀ j, run (initImpl P [] rows cols) I0 I1 r a j = r j := by
  refine ⟨rfl, rfl, ?_⟩
  intro j
  rw [run_eval]
  simp [initImpl]

/-- Claim C9: `run` writes only `r[0..N-1]` (`N` the cached point count) and,
the state being read-only (the C++ method is `const`, embedded here as a
function that only reads `S`), a second `run` with the same `I0`, `I1`
reproduces the same residual array. -/
theorem C9_frame (S : PhotoErrorState) (I0 : ℕ → ℚ) (I1 : ℤ → ℚ) (r : ℕ → ℚ) (a : Bool) :
    (∀ j, S.interp_coeffs.length ≤ j → run S I0 I1 r a j = r j) ∧
    (∀ j, run S I0 I1 (fun k => run S I0 I1 r a k) a j = run S I0 I1 r a j) := by
  constructor
  · intro j hj
    rw [run_eval, if_neg (by omega)]
  · intro j
    rw [run_eval S I0 I1 (fun k => run S I0 I1 r a k) a j]
    by_cases h : j < S.interp_coeffs.length
    · rw [if_pos h, run_eval S I0 I1 r a j, if_pos h]
    · rw [if_neg h]

/-- Witness for claim C9: a state with one point leaves `r[3] = 9` untouched. -/
theorem C9_witness :
    [(1, 0, 0, 0)].length ≤ 3 ∧
    run ⟨4, [((1 : ℚ), 0, 0, 0)], [0], [true]⟩ (fun _ => 0) (fun _ => 0) (fun _ => 9) true 3 =
      9 := by
  refine ⟨by decide, ?_⟩
  have h := (C9_frame ⟨4, [((1 : ℚ), 0, 0, 0)], [0], [true]⟩ (fun _ => 0) (fun _ => 0)
    (fun _ => 9) true).1 3 (by decide)
  simpa using h

theorem truncToZero_of_nonneg (q : ℚ) (h : 0 ≤ q) : truncToZero q = ⌊q⌋ := by
  rw [truncToZero, if_pos h]

theorem projectPointSpec_of_scale_ne (P : Matrix34) (X : Vec4) (rows cols : ℤ)
    (hz : dot4 P.row2 X ≠ 0) :
    projectPointSpec P X rows cols =
      ⟨decide (0 ≤ ⌊dot4 P.row0 X / dot4 P.row2 X⌋) &&
        decide (⌊dot4 P.row0 X / dot4 P.row2 X⌋ < cols - 1) &&
        decide (0 ≤ ⌊dot4 P.row1 X / dot4 P.row2 X⌋) &&
        decide (⌊dot4 P.row1 X / dot4 P.row2 X⌋ < rows - 1),
       ⌊dot4 P.row1 X / dot4 P.row2 X⌋ * cols + ⌊dot4 P.row0 X / dot4 P.row2 X⌋,
       (1 - (dot4 P.row0 X / dot4 P.row2 X - ⌊dot4 P.row0 X / dot4 P.row2 X⌋)) *
         (1 - (dot4 P.row1 X / dot4 P.row2 X - ⌊dot4 P.row1 X / dot4 P.row2 X⌋)),
       (dot4 P.row0 X / dot4 P.row2 X - ⌊dot4 P.row0 X / dot4 P.row2 X⌋) *
         (1 - (dot4 P.row1 X / dot4 P.row2 X - ⌊dot4 P.row1 X / dot4 P.row2 X⌋)),
       (1 - (dot4 P.row0 X / dot4 P.row2 X - ⌊dot4 P.row0 X / dot4 P.row2 X⌋)) *
         (dot4 P.row1 X / dot4 P.row2 X - ⌊dot4 P.row1 X / dot4 P.row2 X⌋),
       (dot4 P.row0 X / dot4 P.row2 X - ⌊dot4 P.row0 X / dot4 P.row2 X⌋) *
         (dot4 P.row1 X / dot4 P.row2 X - ⌊dot4 P.row1 X / dot4 P.row2 X⌋)⟩ := by
  simp only [projectPointSpec, if_neg hz]

/-- Claim C4, counterexample: a point projecting to `x = -1/2` (floor `-1`)
is classified valid by the OpenCV-variant `init` at a 4×4 image, because the
C++ `static_cast<int>` truncates `-1/2` toward zero to `0`; the spec's floor
rule classifies the same coordinate invalid. -/
theorem C4_counterexample :
    (initPointOCV ⟨⟨1, 0, 0, 0⟩, ⟨0, 1, 0, 0⟩, ⟨0, 0, 1, 0⟩⟩ ⟨-(1/2), 1/2, 1, 1⟩ 4 4).x =
      -(1/2) ∧
    (initPointOCV ⟨⟨1, 0, 0, 0⟩, ⟨0, 1, 0, 0⟩, ⟨0, 0, 1, 0⟩⟩ ⟨-(1/2), 1/2, 1, 1⟩ 4 4).y =
      1/2 ∧
    (initPointOCV ⟨⟨1, 0, 0, 0⟩, ⟨0, 1, 0, 0⟩, ⟨0, 0, 1, 0⟩⟩ ⟨-(1/2), 1/2, 1, 1⟩ 4 4).valid =
      true ∧
    validFloorSpec (-(1/2)) (1/2) 4 4 = false := by
  refine ⟨?_, ?_, ?_, ?_⟩
  · norm_num [initPointOCV, dot4]
  · norm_num [initPointOCV, dot4]
  · have hc : (⌈(-(1/2) : ℚ)⌉ : ℤ) = 0 := by
      rw [Int.ceil_eq_iff]
      norm_num
    norm_num [initPointOCV, dot4, truncToZero, hc]
  · norm_num [validFloorSpec]

/-- Claim C4, amended: `init` (OpenCV variant) classifies with
`valid[i] = (0 ≤ xi < cols-1) AND (0 ≤ yi < rows-1)` where `(xi, yi)` is the
truncation toward zero (the C++ `static_cast<int>`) of the projected pixel
coordinate, not its floor; a point projecting to `x ≥ cols-1` is still
invalid, and a point with both floor coordinates in `[0, cols-2] × [0, rows-2]`
is still valid (there truncation and floor agree). -/
theorem C4_trunc_margin_rule (P : Matrix34) (X : Vec4) (rows cols : ℤ)
    (_hp : dot4 P.row2 X ≠ 0) :
    ((initPointOCV P X rows cols).valid =
      (decide (0 ≤ truncToZero (initPointOCV P X rows cols).x) &&
       decide (truncToZero (initPointOCV P X rows cols).x < cols - 1) &&
       decide (0 ≤ truncToZero (initPointOCV P X rows cols).y) &&
       decide (truncToZero (initPointOCV P X rows cols).y < rows - 1))) ∧
    (0 < cols → ((cols : ℚ) - 1) ≤ (initPointOCV P X rows cols).x →
      (initPointOCV P X rows cols).valid = false) ∧
    ((0 ≤ ⌊(initPointOCV P X rows cols).x⌋ ∧ ⌊(initPointOCV P X rows cols).x⌋ ≤ cols - 2 ∧
      0 ≤ ⌊(initPointOCV P X rows cols).y⌋ ∧ ⌊(initPointOCV P X rows cols).y⌋ ≤ rows - 2) →
      (initPointOCV P X rows cols).valid = true) := by
  have h1 : (initPointOCV P X rows cols).valid =
      (decide (0 ≤ truncToZero (initPointOCV P X rows cols).x) &&
       decide (truncToZero (initPointOCV P X rows cols).x < cols - 1) &&
       decide (0 ≤ truncToZero (initPointOCV P X rows cols).y) &&
       decide (truncToZero (initPointOCV P X rows cols).y < rows - 1)) := rfl
  refine ⟨h1, ?_, ?_⟩
  · intro hc hx
    have hx0 : (0 : ℚ) ≤ (initPointOCV P X rows cols).x := by
      have hc1 : (1 : ℚ) ≤ (cols : ℚ) := by exact_mod_cast hc
      linarith
    have ht := truncToZero_of_nonneg _ hx0
    have hfl : (cols - 1 : ℤ) ≤ ⌊(initPointOCV P X rows cols).x⌋ := by
      rw [Int.le_floor]
      push_cast
      linarith
    have hb : ¬ (truncToZero (initPointOCV P X rows cols).x < cols - 1) := by
      rw [ht]
      omega
    rw [h1]
    simp [hb]
  · rintro ⟨ha, hb, hc, hd⟩
    have hx0 : (0 : ℚ) ≤ (initPointOCV P X rows cols).x := by
      have hfl := Int.floor_le (initPointOCV P X rows cols).x
      have hca : ((0 : ℤ) : ℚ) ≤ (⌊(initPointOCV P X rows cols).x⌋ : ℚ) := by
        exact_mod_cast ha
      push_cast at hca
      linarith
    have hy0 : (0 : ℚ) ≤ (initPointOCV P X rows cols).y := by
      have hfl := Int.floor_le (initPointOCV P X rows cols).y
      have hca : ((0 : ℤ) : ℚ) ≤ (⌊(initPointOCV P X rows cols).y⌋ : ℚ) := by
        exact_mod_cast hc
      push_cast at hca
      linarith
    rw [h1, truncToZero_of_nonneg _ hx0, truncToZero_of_nonneg _ hy0]
    simp only [Bool.and_eq_true, decide_eq_true_eq]
    omega

/-- Witness for claim C4: a projection with non-zero scale landing at pixel
`(3/2, 3/2)` of a 4×4 image is classified valid. -/
theorem C4_witness :
    dot4 (Matrix34.mk ⟨1, 0, 0, 0⟩ ⟨0, 1, 0, 0⟩ ⟨0, 0, 1, 0⟩).row2 ⟨3/2, 3/2, 1, 1⟩ ≠ 0 ∧
    (initPointOCV ⟨⟨1, 0, 0, 0⟩, ⟨0, 1, 0, 0⟩, ⟨0, 0, 1, 0⟩⟩ ⟨3/2, 3/2, 1, 1⟩ 4 4).valid =
      true :=
  ⟨by norm_num [dot4],
    (C4_trunc_margin_rule ⟨⟨1, 0, 0, 0⟩, ⟨0, 1, 0, 0⟩, ⟨0, 0, 1, 0⟩⟩ ⟨3/2, 3/2, 1, 1⟩ 4 4
      (by norm_num [dot4])).2.2 (by norm_num [initPointOCV, dot4])⟩

/-- Claim C6 (spec-modelled `projectPoints`): a point whose homogeneous scale
is zero is classified invalid rather than raising an error, and the rest of
the batch is processed independently: every slot of the valid mask is the
per-point classification of its own point. -/
theorem C6_degenerate_invalid (P : Matrix34) (X : List Vec4) (rows cols : ℤ) (i : ℕ)
    (hi : i < X.length) (hz : dot4 P.row2 (X.get ⟨i, hi⟩) = 0) :
    (initImpl P X rows cols).valid.length = X.length ∧
    (initImpl P X rows cols).valid.get? i = some false ∧
    ∀ (j : ℕ) (hj : j < X.length),
      (initImpl P X rows cols).valid.get? j =
        some (projectPointSpec P (X.get ⟨j, hj⟩) rows cols).valid := by
  have hne : ¬ (X.isEmpty = true) := by
    cases X with
    | nil => simp at hi
    | cons a l => simp
  have hval : (initImpl P X rows cols).valid =
      X.map fun Xi => (projectPointSpec P Xi rows cols).valid := by
    unfold initImpl
    rw [if_neg hne]
    simp
  refine ⟨by rw [hval]; simp, ?_, ?_⟩
  · rw [hval, List.get?_map, List.get?_eq_get hi]
    have hfalse : (projectPointSpec P (X.get ⟨i, hi⟩) rows cols).valid = false := by
      simp only [projectPointSpec, if_pos hz]
    simp only [List.get_eq_getElem] at hfalse
    simp [hfalse]
  · intro j hj
    rw [hval, List.get?_map, List.get?_eq_get hj]
    rfl

/-- Witness for claim C6: the point `(1, 1, 0, 1)` has zero scale under the
identity-like projection and is classified invalid. -/
theorem C6_witness :
    dot4 (Vec4.mk 0 0 1 0) ⟨1, 1, 0, 1⟩ = 0 ∧
    (initImpl ⟨⟨1, 0, 0, 0⟩, ⟨0, 1, 0, 0⟩, ⟨0, 0, 1, 0⟩⟩ [⟨1, 1, 0, 1⟩] 4 4).valid.get? 0 =
      some false :=
  ⟨by norm_num [dot4],
    (C6_degenerate_invalid ⟨⟨1, 0, 0, 0⟩, ⟨0, 1, 0, 0⟩, ⟨0, 0, 1, 0⟩⟩ [⟨1, 1, 0, 1⟩] 4 4 0
      (by decide) (by norm_num [dot4, List.get])).2.1⟩

/-- Claim C7 (spec-modelled `projectPoints`): for every valid point the four
bilinear weights `(w00, w10, w01, w11)` each lie in `[0, 1]` and sum to `1`
(exactly, in the rational model), being built from the fractional parts of
the projected coordinate. -/
theorem C7_weights_partition_of_unity (P : Matrix34) (X : Vec4) (rows cols : ℤ)
    (hv : (projectPointSpec P X rows cols).valid = true) :
    (0 ≤ (projectPointSpec P X rows cols).w00 ∧ (projectPointSpec P X rows cols).w00 ≤ 1) ∧
    (0 ≤ (projectPointSpec P X rows cols).w10 ∧ (projectPointSpec P X rows cols).w10 ≤ 1) ∧
    (0 ≤ (projectPointSpec P X rows cols).w01 ∧ (projectPointSpec P X rows cols).w01 ≤ 1) ∧
    (0 ≤ (projectPointSpec P X rows cols).w11 ∧ (projectPointSpec P X rows cols).w11 ≤ 1) ∧
    (projectPointSpec P X rows cols).w00 + (projectPointSpec P X rows cols).w10 +
      (projectPointSpec P X rows cols).w01 + (projectPointSpec P X rows cols).w11 = 1 := by
  by_cases hz : dot4 P.row2 X = 0
  · exfalso
    simp only [projectPointSpec, if_pos hz] at hv
    exact Bool.false_ne_true hv
  · rw [projectPointSpec_of_scale_ne P X rows cols hz]
    have hdx0 : (0 : ℚ) ≤ dot4 P.row0 X / dot4 P.row2 X -
        ⌊dot4 P.row0 X / dot4 P.row2 X⌋ := by
      have := Int.floor_le (dot4 P.row0 X / dot4 P.row2 X)
      linarith
    have hdx1 : dot4 P.row0 X / dot4 P.row2 X - ⌊dot4 P.row0 X / dot4 P.row2 X⌋ < 1 := by
      have := Int.lt_floor_add_one (dot4 P.row0 X / dot4 P.row2 X)
      linarith
    have hdy0 : (0 : ℚ) ≤ dot4 P.row1 X / dot4 P.row2 X -
        ⌊dot4 P.row1 X / dot4 P.row2 X⌋ := by
      have := Int.floor_le (dot4 P.row1 X / dot4 P.row2 X)
      linarith
    have hdy1 : dot4 P.row1 X / dot4 P.row2 X - ⌊dot4 P.row1 X / dot4 P.row2 X⌋ < 1 := by
      have := Int.lt_floor_add_one (dot4 P.row1 X / dot4 P.row2 X)
      linarith
    refine ⟨⟨?_, ?_⟩, ⟨?_, ?_⟩, ⟨?_, ?_⟩, ⟨?_, ?_⟩, ?_⟩ <;>
      nlinarith [hdx0, hdx1, hdy0, hdy1]

/-- Witness for claim C7: the projection landing at pixel `(3/2, 3/2)` of a
4×4 image is valid and its weights sum to `1`. -/
theorem C7_witness :
    (projectPointSpec ⟨⟨1, 0, 0, 0⟩, ⟨0, 1, 0, 0⟩, ⟨0, 0, 1, 0⟩⟩ ⟨3/2, 3/2, 1, 1⟩ 4 4).valid =
      true ∧
    (projectPointSpec ⟨⟨1, 0, 0, 0⟩, ⟨0, 1, 0, 0⟩, ⟨0, 0, 1, 0⟩⟩ ⟨3/2, 3/2, 1, 1⟩ 4 4).w00 +
      (projectPointSpec ⟨⟨1, 0, 0, 0⟩, ⟨0, 1, 0, 0⟩, ⟨0, 0, 1, 0⟩⟩ ⟨3/2, 3/2, 1, 1⟩ 4 4).w10 +
      (projectPointSpec ⟨⟨1, 0, 0, 0⟩, ⟨0, 1, 0, 0⟩, ⟨0, 0, 1, 0⟩⟩ ⟨3/2, 3/2, 1, 1⟩ 4 4).w01 +
      (projectPointSpec ⟨⟨1, 0, 0, 0⟩, ⟨0, 1, 0, 0⟩, ⟨0, 0, 1, 0⟩⟩ ⟨3/2, 3/2, 1, 1⟩ 4 4).w11 =
      1 :=
  ⟨by norm_num [projectPointSpec, dot4],
    (C7_weights_partition_of_unity ⟨⟨1, 0, 0, 0⟩, ⟨0, 1, 0, 0⟩, ⟨0, 0, 1, 0⟩⟩
      ⟨3/2, 3/2, 1, 1⟩ 4 4 (by norm_num [projectPointSpec, dot4])).2.2.2.2⟩

/-- Claim C10: the aligned-pointer branch and the unaligned-pointer branch of
`run` produce identical residual arrays for every input; alignment never
changes the computed values. -/
theorem C10_alignment_irrelevant (S : PhotoErrorState) (I0 : ℕ → ℚ) (I1 : ℤ → ℚ)
    (r : ℕ → ℚ) (j : ℕ) :
    run S I0 I1 r true j = run S I0 I1 r false j := by
  rw [run_eval, run_eval]

end BPVO
